import Mathlib

/-!
Verification of the imapmover repository (`imapmover/mover.py`,
`imapmover/cli.py`) via a shallow embedding in Lean 4.

The IMAP protocol library (`imapclient`) and the progress bar are external
collaborators; they are modelled as mock record structures carrying the data
the core reads, and a trace of the mutation/selection calls the core issues
against the destination collaborator.  All other definitions are translated
directly from the Python source.
-/

/-- The per-message details fetched from a server: the identifying-header
blob `BODY[HEADER.FIELDS (MESSAGE-ID DATE)]` (modelled as the pair of the
Message-ID and Date header values, compared only for equality), the reported
`RFC822.SIZE`, the `FLAGS`, the `INTERNALDATE` (opaque, modelled as a `Nat`)
and the raw `RFC822` body. -/
structure MsgData where
  key : String × String
  size : Nat
  flags : List String
  internalDate : Nat
  body : String
deriving DecidableEq, Repr

/-- Python's `s.replace(old, new)` restricted to one-character patterns,
which is how `_imap_sync_core` uses it (IMAP hierarchy separators are single
characters, decoded from one byte). -/
def replaceChar (old new : Char) (s : String) : String :=
  String.mk (s.data.map (fun c => if c = old then new else c))

/-- Translation of the `fix_path` closure defined inside `_imap_sync_core`
(mover.py lines 73-78): when the separators differ, first replace the
destination separator by the substitute character, then replace the source
separator by the destination separator; otherwise the identity. -/
def fix_path (src_dir_separator dest_dir_separator replace_sep : Char)
    (path : String) : String :=
  if src_dir_separator ≠ dest_dir_separator then
    replaceChar src_dir_separator dest_dir_separator
      (replaceChar dest_dir_separator replace_sep path)
  else
    path

/-- Loop body of `_chunk_messages` (mover.py lines 38-53), with the current
chunk and its running byte total as explicit state; the final flush of a
non-empty chunk is the base case. -/
def chunkGo (max_size : Nat) :
    List (Nat × MsgData) → List Nat → Nat → List (List Nat)
  | [], chunk, _ => if chunk.isEmpty then [] else [chunk]
  | (msg_id, details) :: rest, chunk, chunk_total =>
    if chunk_total + details.size ≥ max_size then
      if chunk.isEmpty then
        [msg_id] :: chunkGo max_size rest chunk chunk_total
      else
        chunk :: chunkGo max_size rest [msg_id] details.size
    else
      chunkGo max_size rest (chunk ++ [msg_id]) (chunk_total + details.size)

/-- Translation of `_chunk_messages(messages, max_size)` (mover.py lines
38-53).  The Python argument is a dict from message id to details, iterated
in insertion order; it is modelled as an association list in that order.
The generator's yields are collected into a list of chunks in yield order. -/
def _chunk_messages (messages : List (Nat × MsgData)) (max_size : Nat) :
    List (List Nat) :=
  chunkGo max_size messages [] 0

/-- Instrumented variant of `chunkGo` that keeps the full `(id, details)`
pairs in each produced chunk, so sizes of chunk members can be stated. -/
def chunkGoF (max_size : Nat) :
    List (Nat × MsgData) → List (Nat × MsgData) → Nat → List (List (Nat × MsgData))
  | [], chunk, _ => if chunk.isEmpty then [] else [chunk]
  | m :: rest, chunk, chunk_total =>
    if chunk_total + m.2.size ≥ max_size then
      if chunk.isEmpty then
        [m] :: chunkGoF max_size rest chunk chunk_total
      else
        chunk :: chunkGoF max_size rest [m] m.2.size
    else
      chunkGoF max_size rest (chunk ++ [m]) (chunk_total + m.2.size)

/-- Instrumented `_chunk_messages`, producing chunks of full pairs. -/
def chunkMessagesF (messages : List (Nat × MsgData)) (max_size : Nat) :
    List (List (Nat × MsgData)) :=
  chunkGoF max_size messages [] 0

/-- Cumulative reported size of a list of messages. -/
def sumSizes (l : List (Nat × MsgData)) : Nat :=
  (l.map (fun m => m.2.size)).sum

theorem chunkGo_flatten (max_size : Nat) :
    ∀ (msgs : List (Nat × MsgData)) (chunk : List Nat) (chunk_total : Nat),
      (chunkGo max_size msgs chunk chunk_total).flatten =
        chunk ++ msgs.map (fun m => m.1) := by
  intro msgs
  induction msgs with
  | nil =>
    intro chunk chunk_total
    by_cases h : chunk.isEmpty
    · simp [chunkGo, h, List.isEmpty_iff.mp h]
    · simp [chunkGo, h]
  | cons m rest ih =>
    intro chunk chunk_total
    by_cases h1 : chunk_total + m.2.size ≥ max_size
    · by_cases h2 : chunk.isEmpty
      · simp [chunkGo, h1, h2, ih, List.isEmpty_iff.mp h2]
      · simp [chunkGo, h1, h2, ih]
    · simp [chunkGo, h1, ih]

theorem chunkGoF_map_fst (max_size : Nat) :
    ∀ (msgs chunk : List (Nat × MsgData)) (chunk_total : Nat),
      chunkGo max_size msgs (chunk.map (fun m => m.1)) chunk_total =
        (chunkGoF max_size msgs chunk chunk_total).map
          (fun c => c.map (fun m => m.1)) := by
  intro msgs
  induction msgs with
  | nil =>
    intro chunk chunk_total
    by_cases h : chunk.isEmpty
    · simp [chunkGo, chunkGoF, List.isEmpty_iff.mp h]
    · have h' : ¬ (chunk.map (fun m => m.1)).isEmpty := by
        cases chunk with
        | nil => simp [List.isEmpty] at h
        | cons a l => simp [List.isEmpty]
      simp [chunkGo, chunkGoF, h, h']
  | cons m rest ih =>
    intro chunk chunk_total
    by_cases h1 : chunk_total + m.2.size ≥ max_size
    · by_cases h2 : chunk.isEmpty
      · have h2' : (chunk.map (fun m => m.1)).isEmpty := by
          simp [List.isEmpty_iff.mp h2]
        simp only [chunkGo, chunkGoF, if_pos h1, if_pos h2, if_pos h2']
        rw [ih]
        simp
      · have h2' : ¬ (chunk.map (fun m => m.1)).isEmpty := by
          cases chunk with
          | nil => simp [List.isEmpty] at h2
          | cons a l => simp [List.isEmpty]
        simp only [chunkGo, chunkGoF, if_pos h1, if_neg h2, if_neg h2']
        rw [show [m.1] = [m].map (fun m => m.1) by simp, ih]
        simp
    · simp only [chunkGo, chunkGoF, if_neg h1]
      rw [show chunk.map (fun m => m.1) ++ [m.1]
            = (chunk ++ [m]).map (fun m => m.1) by simp, ih]

theorem chunkGoF_bounds (max_size : Nat) :
    ∀ (msgs chunk : List (Nat × MsgData)) (chunk_total : Nat),
      chunk_total = sumSizes chunk →
      (2 ≤ chunk.length → chunk_total < max_size) →
      (∀ m ∈ chunk, max_size ≤ m.2.size → chunk = [m]) →
      ∀ c ∈ chunkGoF max_size msgs chunk chunk_total,
        (2 ≤ c.length → sumSizes c < max_size) ∧
        (∀ m ∈ c, max_size ≤ m.2.size → c = [m]) := by
  intro msgs
  induction msgs with
  | nil =>
    intro chunk chunk_total h1 h2 h3 c hc
    by_cases h : chunk.isEmpty
    · simp [chunkGoF, h] at hc
    · simp [chunkGoF, h] at hc
      subst hc
      exact ⟨fun hl => h1 ▸ h2 hl, h3⟩
  | cons m rest ih =>
    intro chunk chunk_total h1 h2 h3 c hc
    by_cases hge : chunk_total + m.2.size ≥ max_size
    · by_cases hemp : chunk.isEmpty
      · have hnil : chunk = [] := List.isEmpty_iff.mp hemp
        simp only [chunkGoF, if_pos hge, if_pos hemp, List.mem_cons] at hc
        rcases hc with hc | hc
        · subst hc
          constructor
          · intro hl; simp at hl
          · intro m' hm' _
            simp at hm'
            simp [hm']
        · exact ih chunk chunk_total h1 h2 h3 c hc
      · simp only [chunkGoF, if_pos hge, if_neg hemp, List.mem_cons] at hc
        rcases hc with hc | hc
        · subst hc
          exact ⟨fun hl => h1 ▸ h2 hl, h3⟩
        · refine ih [m] m.2.size ?_ ?_ ?_ c hc
          · simp [sumSizes]
          · intro hl; simp at hl
          · intro m' hm' _
            simp at hm'
            simp [hm']
    · simp only [chunkGoF, if_neg hge] at hc
      refine ih (chunk ++ [m]) (chunk_total + m.2.size) ?_ ?_ ?_ c hc
      · simp [sumSizes] at h1 ⊢
        omega
      · intro _
        omega
      · intro m' hm' hsz
        exfalso
        simp at hm'
        rcases hm' with hm' | hm'
        · have := h3 m' hm' hsz
          subst this
          simp [sumSizes] at h1
          omega
        · subst hm'
          omega

/-- The batching loop `for i in range(-(-len(l)//n)): l[i*n:(i+1)*n]` used in
`_imap_sync_core` (mover.py lines 125-126 and 138-139) to fetch message
details in groups of at most `MSG_CHUNK_SIZE` identifiers: the i-th batch is
the slice of length `n` starting at `i*n`, and the number of batches is the
ceiling of `len(l)/n`. -/
def batched (n : Nat) (l : List α) : List (List α) :=
  (List.range ((l.length + n - 1) / n)).map (fun i => (l.drop (i * n)).take n)

/-- Structural-recursion view of `batched`: peel off `take n` repeatedly,
`k` times. -/
def batchedAux (n : Nat) : Nat → List α → List (List α)
  | 0, _ => []
  | k + 1, l => l.take n :: batchedAux n k (l.drop n)

theorem batched_range_eq (n : Nat) :
    ∀ (k : Nat) (l : List α),
      (List.range k).map (fun i => (l.drop (i * n)).take n) = batchedAux n k l := by
  intro k
  induction k with
  | zero => intro l; simp [batchedAux]
  | succ k ih =>
    intro l
    rw [List.range_succ_eq_map]
    simp only [List.map_cons, List.map_map, batchedAux]
    congr 1
    · simp
    · rw [← ih (l.drop n)]
      apply List.map_congr_left
      intro i _
      simp [List.drop_drop, Nat.succ_mul, Nat.add_comm]

theorem batchedAux_flatten (n : Nat) :
    ∀ (k : Nat) (l : List α), l.length ≤ k * n → (batchedAux n k l).flatten = l := by
  intro k
  induction k with
  | zero =>
    intro l hl
    simp at hl
    simp [batchedAux, hl]
  | succ k ih =>
    intro l hl
    simp only [batchedAux, List.flatten_cons]
    rw [ih (l.drop n) (by simp [Nat.succ_mul] at hl ⊢; omega)]
    exact List.take_append_drop n l

theorem batched_flatten (n : Nat) (hn : 1 ≤ n) (l : List α) :
    (batched n l).flatten = l := by
  rw [batched, batched_range_eq]
  apply batchedAux_flatten
  have hd := Nat.div_add_mod (l.length + n - 1) n
  have hm : (l.length + n - 1) % n < n := Nat.mod_lt _ (by omega)
  have hq : (l.length + n - 1) / n * n = n * ((l.length + n - 1) / n) :=
    Nat.mul_comm _ _
  omega

/-- The deduplication loop of `_imap_sync_core` (mover.py lines 141-144):
fold over the fetched source-message details, and whenever the
identifying-header value is not in the destination key set, record the
message in `move_messages` (insertion order) and add its reported size to
`data_total`. -/
def computeMove (dest_msg_set : List (String × String))
    (src_info : List (Nat × MsgData)) : List (Nat × MsgData) × Nat :=
  src_info.foldl
    (fun acc m =>
      if m.2.key ∈ dest_msg_set then acc
      else (acc.1 ++ [m], acc.2 + m.2.size))
    ([], 0)

/-- The per-folder deduplication computation of `_imap_sync_core` (mover.py
lines 124-144): build the set of identifying-header keys of the
destination's (non-deleted) messages, fetched in batches of 1000, then scan
the source's (non-deleted) messages, also fetched in batches of 1000, and
keep those whose key is absent, accumulating their sizes.  The Python `set`
is modelled by the list of keys (only membership is used). -/
def computeTransferSet (dest_messages src_messages : List (Nat × MsgData)) :
    List (Nat × MsgData) × Nat :=
  let dest_msg_set := ((batched 1000 dest_messages).flatten).map (fun m => m.2.key)
  computeMove dest_msg_set ((batched 1000 src_messages).flatten)

/-- The flag reconciliation of `_imap_sync_core` (mover.py line 155):
`[f for f in msg[FLAGS] if f in dest_flag_set]`. -/
def reconcileFlags (src_flags dest_flag_set : List String) : List String :=
  src_flags.filter (fun f => dest_flag_set.contains f)

theorem computeMove_go (dest_msg_set : List (String × String)) :
    ∀ (src_info : List (Nat × MsgData)) (acc : List (Nat × MsgData)) (tot : Nat),
      src_info.foldl
        (fun acc m =>
          if m.2.key ∈ dest_msg_set then acc
          else (acc.1 ++ [m], acc.2 + m.2.size))
        (acc, tot) =
      (acc ++ src_info.filter (fun m => ¬ m.2.key ∈ dest_msg_set),
       tot + sumSizes (src_info.filter (fun m => ¬ m.2.key ∈ dest_msg_set))) := by
  intro src_info
  induction src_info with
  | nil => intro acc tot; simp [sumSizes]
  | cons m rest ih =>
    intro acc tot
    by_cases h : m.2.key ∈ dest_msg_set
    · simp only [List.foldl_cons, if_pos h]
      rw [ih]
      simp [List.filter_cons, h]
    · simp only [List.foldl_cons, if_neg h]
      rw [ih]
      simp [List.filter_cons, h, sumSizes]
      omega

theorem computeMove_spec (dest_msg_set : List (String × String))
    (src_info : List (Nat × MsgData)) :
    computeMove dest_msg_set src_info =
      (src_info.filter (fun m => ¬ m.2.key ∈ dest_msg_set),
       sumSizes (src_info.filter (fun m => ¬ m.2.key ∈ dest_msg_set))) := by
  rw [computeMove, computeMove_go]
  simp

/-- Glob matching on character lists, modelling the semantics of Python's
`fnmatch` for the pattern forms appearing in this development: `*` matches
any (possibly empty) run of characters, `?` matches exactly one character,
and every other pattern character matches itself.  (Character classes and
case normalisation, which is the identity on POSIX, are not modelled; no
claim uses them.) -/
def globMatchL : List Char → List Char → Bool
  | [], s => s.isEmpty
  | p :: ps, s =>
    if p = '*' then
      (List.range (s.length + 1)).any (fun k => globMatchL ps (s.drop k))
    else
      match s with
      | [] => false
      | c :: cs => (p = '?' || p = c) && globMatchL ps cs

/-- Glob matching on strings; `globMatch pattern name`. -/
def globMatch (pattern name : String) : Bool :=
  globMatchL pattern.data name.data

/-- Python's `fnmatch.filter(names, pattern)`, parametrised by the
matching function. -/
def fnFilter (mf : String → String → Bool) (names : List String)
    (pattern : String) : List String :=
  names.filter (fun name => mf pattern name)

/-- Python's `result.extend(name for name in include if name not in result)`
(cli.py line 34): the generator is consumed lazily while `extend` appends,
so each candidate is tested against the list as grown so far. -/
def extendNew (result incl : List String) : List String :=
  incl.foldl (fun acc name => if name ∈ acc then acc else acc ++ [name]) result

/-- Translation of `_folder_matcher(pattern_list, folder_list)` (cli.py
lines 20-39), parametrised by the glob-matching function used by
`fnmatch.filter`.  A pattern is a `(direction, pattern)` pair whose
direction is the string `"+"` (include) or `"-"` (exclude), exactly as the
CLI builds them. -/
def _folder_matcher (mf : String → String → Bool)
    (pattern_list : List (String × String)) (folder_list : List String) :
    List String :=
  let init : List String :=
    match pattern_list with
    | (d, _) :: _ => if d = "+" then [] else folder_list
    | [] => folder_list
  pattern_list.foldl
    (fun result dp =>
      if dp.1 = "+" then
        extendNew result (fnFilter mf folder_list dp.2)
      else
        let excl := fnFilter mf result dp.2
        result.filter (fun name => ¬ name ∈ excl))
    init

/-- Modelled from the claim's wording for comparison with `_folder_matcher`:
a left fold whose initial working set is the full folder list when the
pattern list is empty or starts with an exclude and empty when it starts
with an include; each include glob-matches the full original folder list and
appends the matching names not already present, and each exclude
glob-matches the current working set and removes its matches. -/
def folderFilterSpec (mf : String → String → Bool)
    (pattern_list : List (String × String)) (folder_list : List String) :
    List String :=
  let init : List String :=
    match pattern_list with
    | [] => folder_list
    | (d, _) :: _ => if d = "+" then [] else folder_list
  pattern_list.foldl
    (fun ws dp =>
      if dp.1 = "+" then
        ws ++ ((folder_list.filter (fun n => mf dp.2 n)).filter (fun n => ¬ n ∈ ws))
      else
        ws.filter (fun n => ¬ mf dp.2 n))
    init

theorem extendNew_eq_append (incl : List String) :
    ∀ (ws : List String), incl.Nodup →
      extendNew ws incl = ws ++ incl.filter (fun n => ¬ n ∈ ws) := by
  induction incl with
  | nil => intro ws _; simp [extendNew]
  | cons name rest ih =>
    intro ws hnd
    rw [List.nodup_cons] at hnd
    by_cases h : name ∈ ws
    · simp only [extendNew, List.foldl_cons, if_pos h]
      rw [show (List.foldl (fun acc name => if name ∈ acc then acc else acc ++ [name]) ws rest) = extendNew ws rest from rfl,
        ih ws hnd.2]
      simp [List.filter_cons, h]
    · simp only [extendNew, List.foldl_cons, if_neg h]
      rw [show (List.foldl (fun acc name => if name ∈ acc then acc else acc ++ [name]) (ws ++ [name]) rest) = extendNew (ws ++ [name]) rest from rfl,
        ih (ws ++ [name]) hnd.2]
      simp only [List.filter_cons]
      have hfeq : rest.filter (fun n => ¬ n ∈ ws ++ [name])
          = rest.filter (fun n => ¬ n ∈ ws) := by
        apply List.filter_congr
        intro n hn
        have hne : n ≠ name := fun he => hnd.1 (he ▸ hn)
        simp [List.mem_append, hne]
      rw [hfeq]
      simp [h]

/-- Mutating / selecting calls that `_imap_sync_core` issues against the
destination protocol collaborator, recorded as a trace. -/
inductive DestOp where
  | createFolder (path : String)
  | selectFolder (path : String)
  | append (path : String) (body : String) (flags : List String) (internalDate : Nat)
deriving DecidableEq, Repr

/-- Abnormal terminations of `_imap_sync_core` modelled here: the
`IndexError` raised by `src_folder_data[0]` (mover.py line 66) or
`dest_folder_data[0]` (line 71) when a server's folder listing is empty. -/
inductive SyncError where
  | srcListIndexError
  | destListIndexError
deriving DecidableEq, Repr

/-- Per-folder outcome of the synchronisation loop: the source path, its
mapped destination path, the computed `move_messages` transfer set (in
insertion order) and the accumulated `data_total` byte count. -/
structure FolderResult where
  path : String
  fixed_path : String
  move_messages : List (Nat × MsgData)
  data_total : Nat
deriving DecidableEq, Repr

/-- Mock of the source protocol collaborator: the `list_folders()` result
(triples of folder flags, hierarchy separator and path, the separator
modelled as the character its one decoded byte yields), and for each folder
path the details of its non-deleted messages in server order — the composite
of `select_folder`, `search(['NOT', 'DELETED'])` and `fetch`. -/
structure MockSrc where
  folder_data : List (List String × Char × String)
  messages : List (String × List (Nat × MsgData))
deriving Repr

/-- Mock of the destination protocol collaborator: the `list_folders()`
result, the supported-flag list returned by `select_folder(path)[FLAGS]`,
and the non-deleted message details per folder path.  Paths absent from the
tables yield empty results; the mock records rather than performs mutations,
so a run observes the destination's initial state throughout. -/
structure MockDest where
  folder_data : List (List String × Char × String)
  folder_flags : List (String × List String)
  messages : List (String × List (Nat × MsgData))
deriving Repr

/-- Python `==` between a `str` and a `(str, flags)` tuple, which is always
`False` since the operands have different types.  Used by mover.py line 116,
where `fixed_path not in missing_folders` tests the string `fixed_path`
against the pair entries of `missing_folders`. -/
def pyEqStrTuple (_s : String) (_t : String × List String) : Bool := false

/-- Python `s in l` for a string `s` and a list `l` of `(str, flags)` pairs:
`any` over `pyEqStrTuple`, hence always `False`. -/
def pyMemStrTupleList (s : String) (l : List (String × List String)) : Bool :=
  l.any (fun t => pyEqStrTuple s t)

/-- Insert a directory-map entry into a list sorted by source path. -/
def insertByPath (e : String × List String × String) :
    List (String × List String × String) → List (String × List String × String)
  | [] => [e]
  | x :: xs => if e.1 ≤ x.1 then e :: x :: xs else x :: insertByPath e xs

/-- Python's `dir_map.sort()` (mover.py line 82): the tuples are compared
lexicographically, so the source path (first component) is the sort key;
entries with equal paths do not arise from a folder listing. -/
def sortDirMap (l : List (String × List String × String)) :
    List (String × List String × String) :=
  l.foldr insertByPath []

/-- Translation of `_imap_sync_core` (mover.py lines 57-158) against the
mock collaborators.  The returned trace lists, in program order, every
`create_folder`, `select_folder` and `append` call issued against the
destination, and the returned list gives each processed folder's computed
transfer set and byte total.  Progress-reporting calls are no-ops on the
model.  The third component threaded through the fold is the last
`dest_flag_set` read, mirroring the Python local that survives loop
iterations (it starts out unassigned in Python; the model starts it at `[]`,
which is never read because the selection branch is always taken — see
`pyMemStrTupleList`). -/
def _imap_sync_core (src : MockSrc) (dest : MockDest)
    (replace_sep : Char) (folder_filter : Option (List String → List String))
    (dry_run : Bool) :
    Except SyncError (List DestOp × List FolderResult) :=
  match src.folder_data with
  | [] => Except.error SyncError.srcListIndexError
  | sf :: _ =>
    let src_dir_separator := sf.2.1
    match dest.folder_data with
    | [] => Except.error SyncError.destListIndexError
    | df :: _ =>
      let dest_dir_separator := df.2.1
      let dir_map0 := src.folder_data.map
        (fun e => (e.2.2, e.1, fix_path src_dir_separator dest_dir_separator replace_sep e.2.2))
      let dir_map1 := sortDirMap dir_map0
      let dir_map : List (String × List String × String) :=
        match folder_filter with
        | none => dir_map1
        | some ff =>
          let all_names := dir_map1.map (fun e => e.1)
          let filtered_names := ff all_names
          dir_map1.filter (fun e => filtered_names.contains e.1)
      let dest_folder_set : List String := dest.folder_data.map (fun e => e.2.2)
      let missing_folders : List (String × List String) :=
        (dir_map.filter (fun e => !(dest_folder_set.contains e.2.2))).map
          (fun e => (e.2.2, e.2.1))
      let create_ops : List DestOp :=
        if dry_run then [] else missing_folders.map (fun m => DestOp.createFolder m.1)
      let step :
          List DestOp × List FolderResult × List String →
          String × List String × String →
          List DestOp × List FolderResult × List String :=
        fun st e =>
          let path := e.1
          let fixed_path := e.2.2
          let sel :=
            if !dry_run || !(pyMemStrTupleList fixed_path missing_folders) then
              ([DestOp.selectFolder fixed_path],
               (dest.folder_flags.lookup fixed_path).getD [],
               (dest.messages.lookup fixed_path).getD [])
            else
              ([], st.2.2, [])
          let dest_flag_set := sel.2.1
          let dest_messages := sel.2.2
          let src_messages := (src.messages.lookup path).getD []
          let mv := computeTransferSet dest_messages src_messages
          let append_ops :=
            ((_chunk_messages mv.1 (4 <<< 20)).map
              (fun chunk_ids =>
                (chunk_ids.filterMap
                  (fun i => (src_messages.lookup i).map (fun d => (i, d)))).map
                  (fun m =>
                    DestOp.append fixed_path m.2.body
                      (reconcileFlags m.2.flags dest_flag_set) m.2.internalDate))).flatten
          (st.1 ++ sel.1 ++ append_ops,
           st.2.1 ++ [⟨path, fixed_path, mv.1, mv.2⟩],
           dest_flag_set)
      let final := dir_map.foldl step (create_ops, [], [])
      Except.ok (final.1, final.2.1)

theorem chunkGoF_flatten (max_size : Nat) :
    ∀ (msgs chunk : List (Nat × MsgData)) (chunk_total : Nat),
      (chunkGoF max_size msgs chunk chunk_total).flatten = chunk ++ msgs := by
  intro msgs
  induction msgs with
  | nil =>
    intro chunk chunk_total
    by_cases h : chunk.isEmpty
    · simp [chunkGoF, h, List.isEmpty_iff.mp h]
    · simp [chunkGoF, h]
  | cons m rest ih =>
    intro chunk chunk_total
    by_cases h1 : chunk_total + m.2.size ≥ max_size
    · by_cases h2 : chunk.isEmpty
      · simp [chunkGoF, h1, h2, ih, List.isEmpty_iff.mp h2]
      · simp [chunkGoF, h1, h2, ih]
    · simp [chunkGoF, h1, ih]

/-- Sample message records used as concrete inputs in witnesses and
counterexample evaluations. -/
def msgS3 : MsgData := ⟨("m3", "d3"), 3, [], 0, "c3"⟩

/-- Sample message of reported size 4. -/
def msgS4 : MsgData := ⟨("m4", "d4"), 4, [], 0, "c4"⟩

/-- Sample message of reported size 20, oversized for a 10-byte bound. -/
def msgS20 : MsgData := ⟨("m20", "d20"), 20, [], 0, "c20"⟩

/-- Sample destination-side message holding identifying key `(mid1, d1)`. -/
def msgK1dest : MsgData := ⟨("mid1", "d1"), 50, [], 0, "x"⟩

/-- Sample source-side message with key `(mid1, d1)` and size 100. -/
def msgK1src : MsgData := ⟨("mid1", "d1"), 100, [], 0, "s1"⟩

/-- Sample source-side message with key `(mid2, d2)` and size 200. -/
def msgK2src : MsgData := ⟨("mid2", "d2"), 200, [], 0, "s2"⟩

/-- Claim C3: when the source and destination hierarchy separators are
equal, `fix_path` is the identity; when they differ it first replaces every
occurrence of the destination separator with the substitute character and
then every occurrence of the source separator with the destination
separator; with source separator `/`, destination separator `.` and the
default substitute `_`, `fix_path` maps `a/b.c` to `a.b_c`. -/
theorem claim_C3_folder_name_mapper
    (src_sep dest_sep replace_sep : Char) (path : String) :
    (src_sep = dest_sep → fix_path src_sep dest_sep replace_sep path = path) ∧
    (src_sep ≠ dest_sep →
      fix_path src_sep dest_sep replace_sep path =
        replaceChar src_sep dest_sep (replaceChar dest_sep replace_sep path)) ∧
    fix_path '/' '.' '_' "a/b.c" = "a.b_c" := by
  refine ⟨?_, ?_, by rfl⟩
  · intro h
    simp [fix_path, h]
  · intro h
    simp [fix_path, h]

/-- Witness for C3: both separator cases discharged at concrete inputs. -/
theorem claim_C3_witness :
    fix_path '/' '.' '_' "a/b.c" =
      replaceChar '/' '.' (replaceChar '.' '_' "a/b.c") ∧
    fix_path '/' '/' '_' "a/b.c" = "a/b.c" :=
  ⟨(claim_C3_folder_name_mapper '/' '.' '_' "a/b.c").2.1 (by decide),
   (claim_C3_folder_name_mapper '/' '/' '_' "a/b.c").1 rfl⟩

/-- Claim C6: for every ordered message collection and every
`max_size ≥ 1`, the concatenation of the chunks produced by
`_chunk_messages`, in production order, is exactly the input identifier
sequence in its given order — no identifier omitted, none duplicated, even
when a single message's size exceeds the bound. -/
theorem claim_C6_chunk_concatenation
    (messages : List (Nat × MsgData)) (max_size : Nat) (_hmax : 1 ≤ max_size) :
    (_chunk_messages messages max_size).flatten =
      messages.map (fun m => m.1) := by
  rw [_chunk_messages, chunkGo_flatten]
  simp

/-- Witness for C6: a concrete run with a 5-byte bound and an oversized
message still concatenates to the full identifier sequence. -/
theorem claim_C6_witness :
    (_chunk_messages [(1, msgS3), (2, msgS4), (3, msgS20)] 5).flatten =
      [1, 2, 3] := by
  rw [claim_C6_chunk_concatenation [(1, msgS3), (2, msgS4), (3, msgS20)] 5 (by decide)]
  rfl

/-- Claim C7: `_chunk_messages` yields the identifier projections of the
instrumented chunking `chunkMessagesF`, which never drops a message, gives
every chunk of two or more messages a cumulative size strictly below
`max_size`, and emits any message whose own size reaches or exceeds
`max_size` as a singleton chunk.  (Termination is by structural recursion on
the message list, so no input loops forever.) -/
theorem claim_C7_chunk_close_and_oversize
    (messages : List (Nat × MsgData)) (max_size : Nat) :
    _chunk_messages messages max_size =
      (chunkMessagesF messages max_size).map (fun c => c.map (fun m => m.1)) ∧
    (chunkMessagesF messages max_size).flatten = messages ∧
    ∀ c ∈ chunkMessagesF messages max_size,
      (2 ≤ c.length → sumSizes c < max_size) ∧
      (∀ m ∈ c, max_size ≤ m.2.size → c = [m]) := by
  refine ⟨?_, ?_, ?_⟩
  · rw [_chunk_messages, chunkMessagesF,
      show ([] : List Nat) = ([] : List (Nat × MsgData)).map (fun m => m.1) by rfl,
      chunkGoF_map_fst]
  · rw [chunkMessagesF, chunkGoF_flatten]
    rfl
  · exact chunkGoF_bounds max_size messages [] 0 (by simp [sumSizes])
      (by intro h; simp at h) (by intro m hm; simp at hm)

/-- Witness for C7: on sizes 3, 4, 20 with bound 10, the two-message chunk
sums below the bound and the oversized message forms a singleton chunk. -/
theorem claim_C7_witness :
    sumSizes [(1, msgS3), (2, msgS4)] < 10 ∧ [(3, msgS20)] = [(3, msgS20)] := by
  have h := (claim_C7_chunk_close_and_oversize
    [(1, msgS3), (2, msgS4), (3, msgS20)] 10).2.2
  constructor
  · exact (h [(1, msgS3), (2, msgS4)] (by decide)).1 (by decide)
  · exact (h [(3, msgS20)] (by decide)).2 (3, msgS20) (by decide) (by decide)

/-- Claim C8: in the per-folder deduplication step, a source message enters
the transfer set exactly when its identifying-header key is absent from the
keys of the destination's non-deleted messages (the batched fetches cover
exactly the full message lists), and `data_total` is the sum of the reported
sizes of exactly the transferred messages; on destination key `(mid1, d1)`
and source messages of sizes 100 (key `(mid1, d1)`) and 200 (key
`(mid2, d2)`), the transfer set is the message with identifier 2 and the
total is 200. -/
theorem claim_C8_deduplicator
    (dest_messages src_messages : List (Nat × MsgData)) :
    (computeTransferSet dest_messages src_messages).1 =
      src_messages.filter
        (fun m => ¬ m.2.key ∈ dest_messages.map (fun d => d.2.key)) ∧
    (computeTransferSet dest_messages src_messages).2 =
      sumSizes ((computeTransferSet dest_messages src_messages).1) ∧
    (∀ m, m ∈ (computeTransferSet dest_messages src_messages).1 ↔
      m ∈ src_messages ∧
        ¬ m.2.key ∈ dest_messages.map (fun d => d.2.key)) ∧
    ((computeTransferSet [(7, msgK1dest)] [(1, msgK1src), (2, msgK2src)]).1.map
        (fun m => m.1) = [2] ∧
      (computeTransferSet [(7, msgK1dest)] [(1, msgK1src), (2, msgK2src)]).2 = 200) := by
  have hct : computeTransferSet dest_messages src_messages =
      (src_messages.filter
        (fun m => ¬ m.2.key ∈ dest_messages.map (fun d => d.2.key)),
       sumSizes (src_messages.filter
        (fun m => ¬ m.2.key ∈ dest_messages.map (fun d => d.2.key)))) := by
    rw [computeTransferSet]
    rw [batched_flatten 1000 (by omega) dest_messages,
      batched_flatten 1000 (by omega) src_messages]
    exact computeMove_spec _ _
  refine ⟨by rw [hct], by rw [hct], ?_, by rfl, by rfl⟩
  intro m
  rw [hct]
  simp [List.mem_filter]

/-- Claim C9: the flag list passed to `append` is the order-preserving
subsequence of the source flags consisting of those in the destination's
supported-flag set; unsupported flags are dropped, never replaced.
The closed conjunct is the spec's worked example. -/
theorem claim_C9_flag_reconciler (src_flags dest_flag_set : List String) :
    reconcileFlags src_flags dest_flag_set =
      src_flags.filter (fun f => decide (f ∈ dest_flag_set)) ∧
    (reconcileFlags src_flags dest_flag_set).Sublist src_flags ∧
    (∀ f, f ∈ reconcileFlags src_flags dest_flag_set ↔
      f ∈ src_flags ∧ f ∈ dest_flag_set) ∧
    reconcileFlags ["\\Seen", "\\Flagged", "\\Custom"] ["\\Seen", "\\Flagged"] =
      ["\\Seen", "\\Flagged"] := by
  refine ⟨?_, ?_, ?_, by rfl⟩
  · apply List.filter_congr
    intro f _
    simp
  · exact List.filter_sublist _
  · intro f
    simp [reconcileFlags, List.mem_filter]

theorem extendNew_nodup (incl : List String) :
    ∀ (ws : List String), ws.Nodup → (extendNew ws incl).Nodup := by
  induction incl with
  | nil => intro ws h; simpa [extendNew] using h
  | cons name rest ih =>
    intro ws h
    by_cases hm : name ∈ ws
    · simp only [extendNew, List.foldl_cons, if_pos hm]
      exact ih ws h
    · simp only [extendNew, List.foldl_cons, if_neg hm]
      refine ih (ws ++ [name]) ?_
      simp [List.nodup_append, h, hm]

theorem extendNew_mem (incl : List String) :
    ∀ (ws : List String) (n : String),
      n ∈ extendNew ws incl → n ∈ ws ∨ n ∈ incl := by
  induction incl with
  | nil => intro ws n h; simp [extendNew] at h; exact Or.inl h
  | cons name rest ih =>
    intro ws n h
    by_cases hm : name ∈ ws
    · simp only [extendNew, List.foldl_cons, if_pos hm] at h
      rcases ih ws n h with h' | h'
      · exact Or.inl h'
      · exact Or.inr (List.mem_cons_of_mem _ h')
    · simp only [extendNew, List.foldl_cons, if_neg hm] at h
      rcases ih (ws ++ [name]) n h with h' | h'
      · rcases List.mem_append.mp h' with h'' | h''
        · exact Or.inl h''
        · simp at h''
          exact Or.inr (by simp [h''])
      · exact Or.inr (List.mem_cons_of_mem _ h')

theorem exclude_step_eq (mf : String → String → Bool) (pat : String)
    (ws : List String) :
    ws.filter (fun name => ¬ name ∈ fnFilter mf ws pat) =
      ws.filter (fun n => ¬ mf pat n) := by
  apply List.filter_congr
  intro n hn
  simp [fnFilter, List.mem_filter, hn]

theorem matcher_fold_eq (mf : String → String → Bool) (fl : List String)
    (hnd : fl.Nodup) :
    ∀ (pl : List (String × String)) (ws : List String),
      pl.foldl
        (fun result dp =>
          if dp.1 = "+" then
            extendNew result (fnFilter mf fl dp.2)
          else
            let excl := fnFilter mf result dp.2
            result.filter (fun name => ¬ name ∈ excl))
        ws =
      pl.foldl
        (fun ws dp =>
          if dp.1 = "+" then
            ws ++ ((fl.filter (fun n => mf dp.2 n)).filter (fun n => ¬ n ∈ ws))
          else
            ws.filter (fun n => ¬ mf dp.2 n))
        ws := by
  intro pl
  induction pl with
  | nil => intro ws; rfl
  | cons dp tl ih =>
    intro ws
    simp only [List.foldl_cons]
    rw [← ih]
    by_cases h : dp.1 = "+"
    · simp only [if_pos h]
      rw [show fnFilter mf fl dp.2 = fl.filter (fun n => mf dp.2 n) from rfl,
        extendNew_eq_append _ _ (hnd.filter _)]
    · simp only [if_neg h]
      rw [exclude_step_eq]

theorem matcher_fold_inv (mf : String → String → Bool) (fl : List String) :
    ∀ (pl : List (String × String)) (ws : List String),
      ws.Nodup → (∀ n ∈ ws, n ∈ fl) →
      (pl.foldl
        (fun result dp =>
          if dp.1 = "+" then
            extendNew result (fnFilter mf fl dp.2)
          else
            let excl := fnFilter mf result dp.2
            result.filter (fun name => ¬ name ∈ excl))
        ws).Nodup ∧
      ∀ n ∈ pl.foldl
        (fun result dp =>
          if dp.1 = "+" then
            extendNew result (fnFilter mf fl dp.2)
          else
            let excl := fnFilter mf result dp.2
            result.filter (fun name => ¬ name ∈ excl))
        ws, n ∈ fl := by
  intro pl
  induction pl with
  | nil =>
    intro ws h1 h2
    exact ⟨h1, h2⟩
  | cons dp tl ih =>
    intro ws h1 h2
    simp only [List.foldl_cons]
    by_cases h : dp.1 = "+"
    · simp only [if_pos h]
      refine ih _ (extendNew_nodup _ _ h1) ?_
      intro n hn
      rcases extendNew_mem _ _ _ hn with h' | h'
      · exact h2 n h'
      · exact (List.mem_filter.mp h').1
    · simp only [if_neg h]
      refine ih _ (h1.filter _) ?_
      intro n hn
      exact h2 n (List.mem_filter.mp hn).1

/-- Claim C4: `_folder_matcher` is, for duplicate-free folder lists, exactly
the left fold described by the specification (`folderFilterSpec`): the
working set starts as the full folder list when the pattern list is empty or
starts with an exclude and empty when it starts with an include, each
include glob-matches the full original folder list and appends the matching
names not already present, and each exclude glob-matches the current working
set and removes its matches.  On folders `[A, B, C]`,
`[(include, A), (exclude, *)]` yields `[]` while
`[(exclude, *), (include, A)]` yields `[A]`. -/
theorem claim_C4_folder_filter_fold :
    (∀ (mf : String → String → Bool) (pattern_list : List (String × String))
       (folder_list : List String), folder_list.Nodup →
       _folder_matcher mf pattern_list folder_list =
         folderFilterSpec mf pattern_list folder_list) ∧
    _folder_matcher globMatch [("+", "A"), ("-", "*")] ["A", "B", "C"] = [] ∧
    _folder_matcher globMatch [("-", "*"), ("+", "A")] ["A", "B", "C"] = ["A"] := by
  refine ⟨?_, by rfl, by rfl⟩
  intro mf pl fl hnd
  cases pl with
  | nil => rfl
  | cons dp tl =>
    show List.foldl _ (if dp.1 = "+" then [] else fl) _ =
      List.foldl _ (if dp.1 = "+" then [] else fl) _
    exact matcher_fold_eq mf fl hnd (dp :: tl) _

/-- Witness for C4: the fold equivalence applied to a concrete
duplicate-free folder list and pattern list. -/
theorem claim_C4_witness :
    _folder_matcher globMatch [("-", "B")] ["A", "B", "C"] =
      folderFilterSpec globMatch [("-", "B")] ["A", "B", "C"] :=
  (claim_C4_folder_filter_fold).1 globMatch [("-", "B")] ["A", "B", "C"]
    (by decide)

/-- Claim C5: for a duplicate-free folder list, the filter's output is
duplicate-free and a sublist of the original names, and an empty pattern
list returns the folder list unchanged. -/
theorem claim_C5_folder_filter_invariants
    (mf : String → String → Bool) (pattern_list : List (String × String))
    (folder_list : List String) (hnd : folder_list.Nodup) :
    (_folder_matcher mf pattern_list folder_list).Nodup ∧
    (∀ n ∈ _folder_matcher mf pattern_list folder_list, n ∈ folder_list) ∧
    _folder_matcher mf [] folder_list = folder_list := by
  refine ⟨?_, ?_, rfl⟩
  · cases pattern_list with
    | nil => exact hnd
    | cons dp tl =>
      refine (matcher_fold_inv mf folder_list (dp :: tl)
        (if dp.1 = "+" then [] else folder_list) ?_ ?_).1
      · by_cases h : dp.1 = "+" <;> simp [h, hnd]
      · intro n hn
        by_cases h : dp.1 = "+" <;> simp [h] at hn ⊢
        · exact hn
  · cases pattern_list with
    | nil => intro n hn; exact hn
    | cons dp tl =>
      refine (matcher_fold_inv mf folder_list (dp :: tl)
        (if dp.1 = "+" then [] else folder_list) ?_ ?_).2
      · by_cases h : dp.1 = "+" <;> simp [h, hnd]
      · intro n hn
        by_cases h : dp.1 = "+" <;> simp [h] at hn ⊢
        · exact hn

/-- Witness for C5: the invariants instantiated on a concrete
duplicate-free folder list. -/
theorem claim_C5_witness :
    (_folder_matcher globMatch [("+", "*")] ["A", "B"]).Nodup ∧
    _folder_matcher globMatch [] ["A", "B"] = ["A", "B"] := by
  have h := claim_C5_folder_filter_invariants globMatch [("+", "*")]
    ["A", "B"] (by decide)
  have h0 := claim_C5_folder_filter_invariants globMatch [] ["A", "B"]
    (by decide)
  exact ⟨h.1, h0.2.2⟩

/-- Source mock with one folder `INBOX` (separator `/`) holding one message
of size 100 whose identifying key is absent from the destination. -/
def srcMockA : MockSrc :=
  ⟨[([], '/', "INBOX")], [("INBOX", [(1, msgK1src)])]⟩

/-- Destination mock that already has an empty `INBOX` folder (separator
`/`) supporting the `\Seen` flag. -/
def destMockA : MockDest :=
  ⟨[([], '/', "INBOX")], [("INBOX", ["\\Seen"])], [("INBOX", [])]⟩

/-- Source mock with one folder `Stuff` (separator `/`) holding no
messages. -/
def srcMockB : MockSrc :=
  ⟨[([], '/', "Stuff")], [("Stuff", [])]⟩

/-- Destination mock whose listing contains only `INBOX`, so `Stuff` is a
missing folder. -/
def destMockB : MockDest :=
  ⟨[([], '/', "INBOX")], [], []⟩

/-- Claim C1 fails on the code: the append loop of `_imap_sync_core`
(mover.py lines 149-158) carries no `dry_run` guard — only folder creation
(line 101) is suppressed — so a dry run still issues `dest.append` for every
message in the transfer set, contradicting the claim, §4.6 of the spec and
the CLI's own `--dry-run` help text ("Perform all steps except for creating
mailboxes and writing messages").  At this input, one source message is
missing from the destination and the dry-run trace contains its append; in
fact the dry-run trace coincides with the non-dry-run trace because nothing
else differs when no folder is missing. -/
theorem claim_C1_dry_run_issues_append :
    _imap_sync_core srcMockA destMockA '_' none true =
      Except.ok
        ([DestOp.selectFolder ("INBOX"),
          DestOp.append ("INBOX") ("s1") [] 0],
         [⟨"INBOX", "INBOX", [(1, msgK1src)], 100⟩]) ∧
    _imap_sync_core srcMockA destMockA '_' none true =
      _imap_sync_core srcMockA destMockA '_' none false := by
  exact ⟨rfl, rfl⟩

/-- Claim C2 fails on the code: mover.py line 116 tests
`fixed_path not in missing_folders`, but `missing_folders` holds
`(fixed_path, flags)` tuples while `fixed_path` is a string, and Python's
`==` between a string and a tuple is always `False` — the test is always
`True`, so even in dry-run mode the destination folder is selected although
it was never created, and the `dest_messages = []` branch (line 121) is
unreachable.  At this input the folder `Stuff` is missing from the
destination, yet the dry-run trace contains `select_folder("Stuff")`; the
second conjunct exhibits the vacuous membership test on exactly the
`missing_folders` value arising here. -/
theorem claim_C2_dry_run_selects_missing_folder :
    _imap_sync_core srcMockB destMockB '_' none true =
      Except.ok
        ([DestOp.selectFolder ("Stuff")],
         [⟨"Stuff", "Stuff", [], 0⟩]) ∧
    pyMemStrTupleList ("Stuff") [("Stuff", [])] = false := by
  exact ⟨rfl, rfl⟩

/-- Claim C10: an empty folder listing on either server makes
`_imap_sync_core` abort with the corresponding out-of-range indexing error
(reading `folder_data[0][1]`, mover.py lines 66 and 71) before anything
else happens — the error return carries no trace, so no folder creation and
no message transfer was attempted. -/
theorem claim_C10_empty_listing_aborts (src : MockSrc) (dest : MockDest)
    (replace_sep : Char) (folder_filter : Option (List String → List String))
    (dry_run : Bool) :
    (src.folder_data = [] →
      _imap_sync_core src dest replace_sep folder_filter dry_run =
        Except.error SyncError.srcListIndexError) ∧
    (src.folder_data ≠ [] → dest.folder_data = [] →
      _imap_sync_core src dest replace_sep folder_filter dry_run =
        Except.error SyncError.destListIndexError) := by
  constructor
  · intro h
    unfold _imap_sync_core
    rw [h]
  · intro h1 h2
    unfold _imap_sync_core
    rw [h2]
    rcases hs : src.folder_data with _ | ⟨sf, tl⟩
    · exact absurd hs h1
    · rfl

/-- Witness for C10: both abort cases at concrete mocks with empty
listings. -/
theorem claim_C10_witness :
    _imap_sync_core ⟨[], []⟩ destMockA '_' none false =
      Except.error SyncError.srcListIndexError ∧
    _imap_sync_core srcMockA ⟨[], [], []⟩ '_' none false =
      Except.error SyncError.destListIndexError :=
  ⟨(claim_C10_empty_listing_aborts ⟨[], []⟩ destMockA '_' none false).1 rfl,
   (claim_C10_empty_listing_aborts srcMockA ⟨[], [], []⟩ '_' none false).2
     (by simp [srcMockA]) rfl⟩
